import Mathlib

/-!
Verification of the kuhn3p three-player Kuhn poker core.

The betting automaton (module `kuhn3p/betting.py`) is imported by the
dealer, validator and tournament code but its source is not part of the
checked tree, so it is modelled from the specification (spec sections 3
and 4.1).  The dealer (`kuhn3p/dealer.py`), the agent validator
(`kuhn3p/validator.py`) and the match loop (`kuhn3p/tournament.py`) are
embedded directly from their sources.
-/

namespace Kuhn3p

/-- Modelled from the spec: the passive action when no bet is outstanding
(`Passive = Check`), encoded 0 as in the agent-facing docs. -/
def CHECK : Nat := 0

/-- Modelled from the spec: the aggressive action when no bet is outstanding
(`Aggressive = Bet`), encoded 1. -/
def BET : Nat := 1

/-- Modelled from the spec: the passive action when facing a bet
(`Passive = Call`), encoded 0. -/
def CALL : Nat := 0

/-- Modelled from the spec: the aggressive action when facing a bet
(`Aggressive = Fold`), encoded 1. -/
def FOLD : Nat := 1

/-- Modelled from the spec: the data the automaton derives from an action
history — the rotation queue of seats that still owe an action, the
outstanding bettor (at most one, no raising), the folded seats, and each
seat's pot contribution (1 ante plus 1 if the seat ever bet or called). -/
structure Config where
  queue   : List Nat
  bettor  : Option Nat
  folded  : List Bool
  contrib : List Nat
deriving DecidableEq

/-- Modelled from the spec: at the empty history all three seats owe an
action in rotation order 0,1,2, no bet is outstanding, nobody has folded,
and every seat has contributed the 1-unit ante. -/
def rootConf : Config := ⟨[0, 1, 2], none, [false, false, false], [1, 1, 1]⟩

/-- Add one chip to seat `i`'s contribution. -/
def addChip (l : List Nat) (i : Nat) : List Nat := l.set i (l.getD i 0 + 1)

/-- Modelled from the spec (reopening rule): when seat `p` bets, every other
still-active seat owes exactly one response, in rotation order starting
after `p`. -/
def betQueue (p : Nat) (folded : List Bool) : List Nat :=
  [(p + 1) % 3, (p + 2) % 3].filter (fun q => !(folded.getD q false))

/-- Modelled from the spec: one transition of the betting automaton.  With
no outstanding bet the head of the queue checks (0) or bets (1); facing a
bet it calls (0, contributing one chip) or folds (1). -/
def stepConf (c : Config) (a : Nat) : Config :=
  match c.queue with
  | [] => c
  | p :: rest =>
    match c.bettor with
    | none =>
      if a = 1 then ⟨betQueue p c.folded, some p, c.folded, addChip c.contrib p⟩
      else ⟨rest, none, c.folded, c.contrib⟩
    | some b =>
      if a = 1 then ⟨rest, some b, c.folded.set p true, c.contrib⟩
      else ⟨rest, some b, c.folded, addChip c.contrib p⟩

/-- Modelled from the spec: a `BettingState` is identified by the ordered
action history from the root (the integer ids of the implementation are an
internal detail). -/
abbrev BState := List Nat

/-- The derived data of a history, obtained by replaying it from the root. -/
def conf (h : BState) : Config := h.foldl stepConf rootConf

/-- Modelled from the spec: a state is internal iff some seat still owes an
action. -/
def is_internal (h : BState) : Bool := !(conf h).queue.isEmpty

/-- Modelled from the spec: a state is terminal iff no seat owes an action. -/
def is_terminal (h : BState) : Bool := (conf h).queue.isEmpty

/-- Modelled from the spec: the acting seat of an internal state, the head
of the rotation queue. -/
def actor (h : BState) : Nat := (conf h).queue.headD 0

/-- Modelled from the spec: an internal state with no outstanding bet. -/
def can_bet (h : BState) : Bool := is_internal h && (conf h).bettor.isNone

/-- Modelled from the spec: an internal state whose acting seat faces the
outstanding bet. -/
def facing_bet (h : BState) : Bool := is_internal h && (conf h).bettor.isSome

/-- Modelled from the spec: every internal state offers exactly two legal
actions. -/
def num_actions (h : BState) : Nat := if is_internal h then 2 else 0

/-- Modelled from the spec: applying an action extends the history. -/
def act (h : BState) (a : Nat) : BState := h ++ [a]

/-- Modelled from the spec: a seat is active while it has not folded. -/
def active (h : BState) (i : Nat) : Bool := !((conf h).folded.getD i false)

/-- Modelled from the spec: a seat appears at showdown iff it is still
active at the terminal state (spec section 4.2: "each seat that is active
at the terminal state (i.e., would appear at showdown)"). -/
def at_showdown (h : BState) (i : Nat) : Bool := active h i

/-- Number of seats still active. -/
def activeCount (h : BState) : Nat :=
  ((List.range 3).filter (fun i => active h i)).length

/-- Modelled from the spec: a terminal state with at least two active seats
resolves by showdown. -/
def is_showdown (h : BState) : Bool := is_terminal h && decide (2 ≤ activeCount h)

/-- Modelled from the spec: the outstanding bettor, if any. -/
def bettorOf (h : BState) : Option Nat := (conf h).bettor

/-- Modelled from the spec: a seat's pot contribution. -/
def pot_contribution (h : BState) (i : Nat) : Nat := (conf h).contrib.getD i 0

/-- Modelled from the spec: the pot is the sum of the contributions. -/
def pot_size (h : BState) : Nat := (conf h).contrib.sum

/-- The two children of an internal state; terminal states have none. -/
def children (h : BState) : List BState :=
  if is_internal h then [act h 0, act h 1] else []

/-- Breadth-first enumeration: the reachable states at a given depth. -/
def level : Nat → List BState
  | 0 => [([] : BState)]
  | n + 1 => (level n).flatMap children

/-- All reachable betting states (the tree has depth at most 5). -/
def allStates : List BState := (List.range 6).flatMap level

/-- The reachable terminal states. -/
def terminalStates : List BState := allStates.filter is_terminal

/-- The reachable internal states. -/
def internalStates : List BState := allStates.filter is_internal

/-- All deals of three pairwise-distinct ranks from the four-rank deck. -/
def deals : List (List Nat) :=
  ((List.range 4).flatMap fun a =>
    (List.range 4).flatMap fun b =>
      (List.range 4).map fun c => [a, b, c]).filter fun l => decide l.Nodup

/-! Python values and errors, as far as the validator and dealer observe
them.  An agent's `act` may return an `int`, a `bool`, or some other value;
it may also raise.  The validator raises `ValueError` / `RuntimeError`; the
dealer's own `assert` raises `AssertionError`; an exception raised by a raw
agent hook propagates with its own identity (`agentError`). -/

/-- A Python value returned by an agent's `act`, as far as the validator
inspects it: an `int`, a `bool`, or anything else. -/
inductive PyVal where
  | int (n : Int)
  | bool (b : Bool)
  | other
deriving DecidableEq

/-- A Python exception as far as the dealer observes it. -/
inductive PyErr where
  | valueError (msg : String)
  | runtimeError (msg : String)
  | assertionError
  | agentError (msg : String)
deriving DecidableEq

/-- The class (kind) of a Python exception, ignoring its message. -/
inductive ErrKind where
  | value
  | runtime
  | assertion
  | agent
deriving DecidableEq

/-- The kind of an exception. -/
def errKind : PyErr → ErrKind
  | .valueError _ => .value
  | .runtimeError _ => .runtime
  | .assertionError => .assertion
  | .agentError _ => .agent

/-- The dealer's action loop catches exactly `(ValueError, RuntimeError)`
(`dealer.py` line 33). -/
def caughtByDealer : PyErr → Bool
  | .valueError _ => true
  | .runtimeError _ => true
  | _ => false

/-- A raw player agent: the three hooks of the player capability.  Each can
either return normally or raise (`Except.error`). -/
structure Agent where
  start_hand : Nat → Nat → Except String Unit
  act        : BState → Nat → Except String PyVal
  end_hand   : Nat → Nat → BState → List (Option Nat) → Except String Unit

/-- Python's `isinstance(action, (int, bool))` check (`validator.py` 75). -/
def isIntOrBool : PyVal → Bool
  | .int _ => true
  | .bool _ => true
  | .other => false

/-- Python's `int(action)` coercion on an int-or-bool value
(`validator.py` 81). -/
def pyInt : PyVal → Int
  | .int n => n
  | .bool b => if b then 1 else 0
  | .other => 0

/-- `AgentValidator.act`, the guarded call and return-value part
(`validator.py` 66-95): an exception from the agent is re-raised as
`RuntimeError`; a non-int non-bool return or a value outside `{0,1}` raises
`ValueError`; the automaton-invariant check on `num_actions` raises
`ValueError`; otherwise the result is coerced with `int(...)` and returned. -/
def validateReturn (h : BState) : Except String PyVal → Except PyErr Nat
  | .error e => .error (.runtimeError ("Agent crashed in act(): " ++ e))
  | .ok v =>
    if !isIntOrBool v then
      .error (.valueError "returned invalid action type, expected int (0 or 1)")
    else if !(pyInt v == 0 || pyInt v == 1) then
      .error (.valueError "returned invalid action, must be 0 (check/call) or 1 (bet/fold)")
    else if !(num_actions h == 2) then
      .error (.valueError "Invalid state - num_actions != 2")
    else
      .ok (pyInt v).toNat

/-- `AgentValidator.act` (`validator.py` 45-95): precondition checks on the
state and the card (integrity faults), then the guarded call into the agent
with its return-value validation. -/
def vact (ag : Agent) (h : BState) (card : Nat) : Except PyErr Nat :=
  if !is_internal h then
    .error (.valueError "act() called with non-internal state")
  else if !decide (card < 4) then
    .error (.valueError "Invalid card")
  else
    validateReturn h (ag.act h card)

/-- `AgentValidator.start_hand` (`validator.py` 36-43): the hook is called
inside `try`, any exception is recorded and discarded — the wrapper itself
never raises, so its model is a total function returning the logged error. -/
def vstart (r : Except String Unit) : Option String :=
  match r with
  | .ok _ => none
  | .error e => some ("start_hand error: " ++ e)

/-- `AgentValidator.end_hand` (`validator.py` 97-104): same swallow-on-failure
policy as `vstart`. -/
def vend (r : Except String Unit) : Option String :=
  match r with
  | .ok _ => none
  | .error e => some ("end_hand error: " ++ e)

/-! The dealer, `kuhn3p/dealer.py`. -/

/-- `dealer.winner` (`dealer.py` 4-15).  The `assert betting.is_terminal(state)`
is modelled by `assertionError`; at a showdown the Python loop keeps the
active seat with the strictly largest card (starting from `best_player = -1`);
otherwise the outstanding bettor wins.  (`betting.bettor` is modelled from
the spec as the outstanding bettor; its failure on a state with no bet never
occurs at a reachable non-showdown terminal.) -/
def dwinner (h : BState) (cards : List Nat) : Except PyErr Int :=
  if !is_terminal h then
    .error .assertionError
  else if is_showdown h then
    .ok (((List.range 3).foldl
      (fun acc i =>
        if at_showdown h i && decide (acc.2 < (cards.getD i 0 : Int)) then
          ((i : Int), (cards.getD i 0 : Int))
        else acc)
      (-1, -1)).1)
  else
    match bettorOf h with
    | some b => .ok (b : Int)
    | none => .error (.valueError "bettor: no outstanding bet")

/-- `dealer.py` line 52: the winner takes the pot, every seat pays its
contribution.  Bundles the `winner` call with the payout list. -/
def payout (h : BState) (cards : List Nat) : Except PyErr (List Int) :=
  match dwinner h cards with
  | .error e => .error e
  | .ok w =>
    .ok ((List.range 3).map fun (i : Nat) =>
      (pot_size h : Int) * (if (i : Int) = w then 1 else 0) - (pot_contribution h i : Int))

/-- `dealer.py` lines 29-42: the action loop.  While the state is not
terminal, the acting seat's validated action is requested; a caught
`ValueError` / `RuntimeError` forfeits the turn — the forced `CHECK` (if the
seat can bet) or `FOLD` (if facing a bet) is applied and the loop `break`s
at the resulting state.  The loop is given fuel 6: every reachable state has
history length at most 5, so the fuel is never exhausted. -/
def runLoop (ags : Nat → Agent) (cards : List Nat) : Nat → BState → Except PyErr BState
  | 0, h => .ok h
  | fuel + 1, h =>
    if is_terminal h then .ok h
    else
      match vact (ags (actor h)) h (cards.getD (actor h) 0) with
      | .error e =>
        if caughtByDealer e then .ok (act h (if can_bet h then CHECK else FOLD))
        else .error e
      | .ok a => runLoop ags cards fuel (act h a)

/-- `dealer.py` line 44: the revealed-ranks vector passed to `end_hand`. -/
def shownCards (h : BState) (cards : List Nat) : List (Option Nat) :=
  (List.range 3).map fun i =>
    if at_showdown h i then some (cards.getD i 0) else none

/-- `dealer.py` lines 26-27: `start_hand` is invoked through the validator
for each seat; the wrapper swallows any exception, so only the log remains. -/
def startAll (ags : Nat → Agent) (cards : List Nat) : List (Option String) :=
  (List.range 3).map fun i => vstart ((ags i).start_hand i (cards.getD i 0))

/-- `dealer.py` lines 46-47: `end_hand` is invoked on the RAW players (not
the validator wrappers), in seat order; the first exception aborts the
remaining notifications and propagates. -/
def endAll (ags : Nat → Agent) (cards : List Nat) (h : BState)
    (shown : List (Option Nat)) : Except String Unit := do
  (ags 0).end_hand 0 (cards.getD 0 0) h shown
  (ags 1).end_hand 1 (cards.getD 1 0) h shown
  (ags 2).end_hand 2 (cards.getD 2 0) h shown

/-- The tail of `play_hand` after the action loop: revealed cards, the
`end_hand` notifications, then winner and payouts (`dealer.py` 44-52). -/
def finishHand (ags : Nat → Agent) (cards : List Nat) :
    Except PyErr BState → Except PyErr (BState × List Int)
  | .error e => .error e
  | .ok st =>
    match endAll ags cards st (shownCards st cards) with
    | .error e => .error (.agentError e)
    | .ok _ =>
      match payout st cards with
      | .error e => .error e
      | .ok d => .ok (st, d)

/-- `dealer.play_hand` (`dealer.py` 17-52): wrap the seats, notify
`start_hand` through the wrappers, run the action loop from the root, then
finish the hand. -/
def play_hand (ags : Nat → Agent) (cards : List Nat) :
    Except PyErr (BState × List Int) :=
  let _startLog := startAll ags cards
  finishHand ags cards (runLoop ags cards 6 ([] : BState))

/-! Concrete agents used in witnesses and counterexamples. -/

/-- An agent that always checks or calls and whose hooks succeed. -/
def okAgent : Agent :=
  ⟨fun _ _ => .ok (), fun _ _ => .ok (.int 0), fun _ _ _ _ => .ok ()⟩

/-- A table of three `okAgent`s. -/
def okAgs : Nat → Agent := fun _ => okAgent

/-- An agent whose `act` raises. -/
def crashAgent : Agent :=
  ⟨fun _ _ => .ok (), fun _ _ => .error "boom", fun _ _ _ _ => .ok ()⟩

/-- A table of three `crashAgent`s. -/
def crashAgs : Nat → Agent := fun _ => crashAgent

/-- An agent that returns the out-of-range action 5. -/
def badAgent : Agent :=
  ⟨fun _ _ => .ok (), fun _ _ => .ok (.int 5), fun _ _ _ _ => .ok ()⟩

/-- An agent that returns the Python value `True`. -/
def boolAgent : Agent :=
  ⟨fun _ _ => .ok (), fun _ _ => .ok (.bool true), fun _ _ _ _ => .ok ()⟩

/-- An agent that plays fine but whose `end_hand` hook raises. -/
def endCrashAgent : Agent :=
  ⟨fun _ _ => .ok (), fun _ _ => .ok (.int 0), fun _ _ _ _ => .error "boom"⟩

/-- Seat 0 crashes in `end_hand`, the other seats are well-behaved. -/
def endCrashAgs : Nat → Agent := fun i => if i = 0 then endCrashAgent else okAgent

/-- Whether the payout of a hand sums to zero (`Bool` form for exhaustive
checking over the finite state and deal spaces). -/
def payoutZero (h : BState) (cards : List Nat) : Bool :=
  match payout h cards with
  | .ok d => d.sum == 0
  | .error _ => false

/-- Whether the dealer's winner computation succeeds and names seat `w`. -/
def winnerIs (h : BState) (cards : List Nat) (w : Nat) : Bool :=
  match dwinner h cards with
  | .ok x => x == (w : Int)
  | .error _ => false

/-! The match loop, `kuhn3p/tournament.py` `Match.play` with
`button_rotation=True`.  With `first = hand_num % 3` the hand is played by
`[players[first], players[second], players[third]]` and seat `i`'s delta is
credited to `scores[(first + i) % 3]` (lines 44-60).  The per-hand delta
vector is abstracted as a function `d` of the hand number, since
`dealer.play_hand` never reads the scores. -/

/-- One iteration of `Match.play`'s loop: seat `i`'s delta of hand `hn` is
added to the score of original player `(hn % 3 + i) % 3`. -/
def handUpdate (d : Nat → Nat → Int) (hn : Nat) (s : List Int) : List Int :=
  (List.range 3).foldl
    (fun acc i =>
      acc.set ((hn % 3 + i) % 3) (acc.getD ((hn % 3 + i) % 3) 0 + d hn i)) s

/-- `Match.play` over `n` hands, starting from scores `[0, 0, 0]`. -/
def matchPlay (d : Nat → Nat → Int) (n : Nat) : List Int :=
  (List.range n).foldl (fun s hn => handUpdate d hn s) [0, 0, 0]

/-! Helper lemmas. -/

/-- A state that is not terminal is internal. -/
theorem internal_of_not_terminal {h : BState} (hT : ¬ is_terminal h = true) :
    is_internal h = true := by
  unfold is_internal is_terminal at *
  cases hQ : (conf h).queue.isEmpty with
  | true => exact absurd hQ hT
  | false => rfl

/-- A seat facing a bet cannot bet: the two internal shapes are mutually
exclusive. -/
theorem can_bet_of_facing {h : BState} (hF : facing_bet h = true) :
    can_bet h = false := by
  unfold can_bet facing_bet at *
  cases hb : (conf h).bettor with
  | none => rw [hb] at hF; simp at hF
  | some b => simp

/-- Both children of a reachable internal state are reachable. -/
theorem stepMem : ∀ h ∈ allStates, is_internal h = true →
    act h 0 ∈ allStates ∧ act h 1 ∈ allStates := by decide

/-- Every reachable state has history length at most 5, so fuel 6 never
runs out along a hand played from the root. -/
theorem reachable_length : ∀ h ∈ allStates, h.length ≤ 5 := by decide

/-- An accepted return value is one of the coerced actions 0 or 1. -/
theorem validateReturn_ok {h : BState} {r : Except String PyVal} {a : Nat}
    (hv : validateReturn h r = .ok a) : a = 0 ∨ a = 1 := by
  cases r with
  | error e => exact Except.noConfusion hv
  | ok v =>
    simp only [validateReturn] at hv
    split at hv
    · exact Except.noConfusion hv
    · split at hv
      · exact Except.noConfusion hv
      · split at hv
        · exact Except.noConfusion hv
        · rename_i hrange hnum
          injection hv with h1
          have h01 : pyInt v = 0 ∨ pyInt v = 1 := by
            by_cases h0 : pyInt v = 0
            · exact Or.inl h0
            · by_cases h2 : pyInt v = 1
              · exact Or.inr h2
              · exact absurd (by simp [h0, h2]) hrange
          rcases h01 with h0 | h0 <;> rw [h0] at h1 <;> rw [← h1]
          · exact Or.inl rfl
          · exact Or.inr rfl

/-- The validator only ever returns the coerced actions 0 or 1. -/
theorem vact_ok {ag : Agent} {h : BState} {c a : Nat}
    (hv : vact ag h c = .ok a) : a = 0 ∨ a = 1 := by
  unfold vact at hv
  split at hv
  · exact Except.noConfusion hv
  · split at hv
    · exact Except.noConfusion hv
    · exact validateReturn_ok hv

/-- The action loop keeps the state inside the reachable set. -/
theorem runLoop_mem {ags : Nat → Agent} {cards : List Nat} :
    ∀ fuel (h st : BState), h ∈ allStates →
      runLoop ags cards fuel h = .ok st → st ∈ allStates := by
  intro fuel
  induction fuel with
  | zero =>
    intro h st hm hr
    injection hr with h1
    rw [← h1]; exact hm
  | succ n ih =>
    intro h st hm hr
    unfold runLoop at hr
    split at hr
    · injection hr with h1
      rw [← h1]; exact hm
    · rename_i hT
      have hint : is_internal h = true := internal_of_not_terminal hT
      have hs := stepMem h hm hint
      split at hr
      · split at hr
        · injection hr with h1
          rw [← h1]
          by_cases hcb : can_bet h = true
          · simpa [hcb, CHECK] using hs.1
          · have hcb2 : can_bet h = false := by
              cases hx : can_bet h with
              | true => exact absurd hx hcb
              | false => rfl
            simpa [hcb2, FOLD] using hs.2
        · exact Except.noConfusion hr
      · rename_i a hv
        rcases vact_ok hv with h0 | h0 <;> rw [h0] at hr
        · exact ih _ _ hs.1 hr
        · exact ih _ _ hs.2 hr

/-- Unpacking a successful `finishHand`. -/
theorem finishHand_ok {ags : Nat → Agent} {cards : List Nat}
    {r : Except PyErr BState} {st : BState} {d : List Int}
    (hf : finishHand ags cards r = .ok (st, d)) :
    r = .ok st ∧ payout st cards = .ok d := by
  cases r with
  | error e => exact Except.noConfusion hf
  | ok st0 =>
    cases hE : endAll ags cards st0 (shownCards st0 cards) with
    | error e =>
      simp only [finishHand] at hf
      rw [hE] at hf
      exact Except.noConfusion hf
    | ok u =>
      cases hP : payout st0 cards with
      | error e2 =>
        simp only [finishHand] at hf
        rw [hE, hP] at hf
        exact Except.noConfusion hf
      | ok d0 =>
        simp only [finishHand] at hf
        rw [hE, hP] at hf
        injection hf with h1
        injection h1 with h2 h3
        rw [← h2, ← h3]
        exact ⟨rfl, hP⟩

/-- Unpacking a successful `play_hand`. -/
theorem play_hand_ok {ags : Nat → Agent} {cards : List Nat}
    {st : BState} {d : List Int}
    (hp : play_hand ags cards = .ok (st, d)) :
    runLoop ags cards 6 ([] : BState) = .ok st ∧ payout st cards = .ok d :=
  finishHand_ok hp

/-- A successful winner computation implies the state was terminal (the
dealer's `assert` passed). -/
theorem dwinner_terminal {h : BState} {cards : List Nat} {w : Int}
    (hw : dwinner h cards = .ok w) : is_terminal h = true := by
  cases hb : is_terminal h with
  | true => rfl
  | false =>
    exfalso
    unfold dwinner at hw
    rw [hb] at hw
    exact Except.noConfusion hw

/-- A successful payout implies the state was terminal. -/
theorem payout_terminal {h : BState} {cards : List Nat} {d : List Int}
    (hp : payout h cards = .ok d) : is_terminal h = true := by
  unfold payout at hp
  split at hp
  · exact Except.noConfusion hp
  · rename_i w hw
    exact dwinner_terminal hw

/-- Zero-sum on the whole finite table: every reachable terminal state and
every distinct-rank deal. -/
theorem payoutZero_all : ∀ h ∈ terminalStates, ∀ c ∈ deals,
    payoutZero h c = true := by decide

/-- One hand of `Match.play` adds hand `hn`'s seat-`i` delta to original
player `(hn % 3 + i) % 3`; in closed form, player `p` receives the delta of
the seat it occupied, `(p + 3 - hn % 3) % 3`. -/
theorem handUpdate_eq (d : Nat → Nat → Int) (hn : Nat) (a b c : Int) :
    handUpdate d hn [a, b, c] =
      [a + d hn ((0 + 3 - hn % 3) % 3),
       b + d hn ((1 + 3 - hn % 3) % 3),
       c + d hn ((2 + 3 - hn % 3) % 3)] := by
  have h3 : hn % 3 = 0 ∨ hn % 3 = 1 ∨ hn % 3 = 2 := by omega
  unfold handUpdate
  rcases h3 with h0 | h0 | h0 <;> rw [h0] <;> rfl

/-- Closed form of the `Match.play` scores after `n` hands. -/
theorem matchPlay_eq (d : Nat → Nat → Int) (n : Nat) :
    matchPlay d n =
      [((List.range n).map fun hn => d hn ((0 + 3 - hn % 3) % 3)).sum,
       ((List.range n).map fun hn => d hn ((1 + 3 - hn % 3) % 3)).sum,
       ((List.range n).map fun hn => d hn ((2 + 3 - hn % 3) % 3)).sum] := by
  induction n with
  | zero => rfl
  | succ n ih =>
    unfold matchPlay at *
    rw [List.range_succ, List.foldl_append, ih]
    simp only [List.foldl_cons, List.foldl_nil]
    rw [handUpdate_eq]
    simp [List.map_append, List.sum_append]

/-- For each hand the three rotated seat indices are a permutation of the
three seats, so the per-player sums add up to the plain per-seat total. -/
theorem sum_three_rotations (d : Nat → Nat → Int) (l : List Nat) :
    ((l.map fun hn => d hn ((0 + 3 - hn % 3) % 3)).sum +
      (l.map fun hn => d hn ((1 + 3 - hn % 3) % 3)).sum +
      (l.map fun hn => d hn ((2 + 3 - hn % 3) % 3)).sum) =
      (l.map fun hn => d hn 0 + d hn 1 + d hn 2).sum := by
  induction l with
  | nil => rfl
  | cons x xs ih =>
    simp only [List.map_cons, List.sum_cons]
    have h3 : x % 3 = 0 ∨ x % 3 = 1 ∨ x % 3 = 2 := by omega
    have hperm : d x ((0 + 3 - x % 3) % 3) + d x ((1 + 3 - x % 3) % 3) +
        d x ((2 + 3 - x % 3) % 3) = d x 0 + d x 1 + d x 2 := by
      rcases h3 with h0 | h0 | h0 <;> rw [h0] <;> norm_num <;> ring
    rw [← ih, ← hperm]
    ring

/-- The full winner characterisation over every reachable terminal state
and every distinct-rank deal. -/
theorem winnerTable : ∀ st ∈ terminalStates, ∀ cards ∈ deals,
    (is_showdown st = true →
      ∃ w ∈ List.range 3, winnerIs st cards w = true ∧ active st w = true ∧
        ∀ i ∈ List.range 3, active st i = true → i ≠ w →
          cards.getD i 0 < cards.getD w 0) ∧
    (is_showdown st = false →
      ∃ w ∈ List.range 3, winnerIs st cards w = true ∧ active st w = true ∧
        ∀ i ∈ List.range 3, i ≠ w → active st i = false) := by decide

/-- The validator's `act` behaves identically for agents with the same
decision function. -/
theorem vact_ext {a1 a2 : Agent} (he : a1.act = a2.act) (h : BState) (c : Nat) :
    vact a1 h c = vact a2 h c := by
  unfold vact
  rw [he]

/-- The action loop only reads the agents' decision functions. -/
theorem runLoop_ext {ags1 ags2 : Nat → Agent}
    (he : ∀ i, (ags1 i).act = (ags2 i).act) (cards : List Nat) :
    ∀ fuel h, runLoop ags1 cards fuel h = runLoop ags2 cards fuel h := by
  intro fuel
  induction fuel with
  | zero => intro h; rfl
  | succ n ih =>
    intro h
    unfold runLoop
    rw [vact_ext (he (actor h)) h (cards.getD (actor h) 0)]
    by_cases ht : is_terminal h = true
    · rw [if_pos ht, if_pos ht]
    · rw [if_neg ht, if_neg ht]
      cases hv : vact (ags2 (actor h)) h (cards.getD (actor h) 0) with
      | error e => rfl
      | ok a => exact ih (act h a)

/-- The `end_hand` notifications only read the agents' `end_hand` hooks. -/
theorem endAll_ext {ags1 ags2 : Nat → Agent}
    (he : ∀ i, (ags1 i).end_hand = (ags2 i).end_hand) (cards : List Nat)
    (h : BState) (shown : List (Option Nat)) :
    endAll ags1 cards h shown = endAll ags2 cards h shown := by
  unfold endAll
  rw [he 0, he 1, he 2]

/-- The tail of the hand only reads the agents' `end_hand` hooks. -/
theorem finishHand_ext {ags1 ags2 : Nat → Agent}
    (he : ∀ i, (ags1 i).end_hand = (ags2 i).end_hand) (cards : List Nat) :
    ∀ r, finishHand ags1 cards r = finishHand ags2 cards r := by
  intro r
  cases r with
  | error e => rfl
  | ok st =>
    simp only [finishHand]
    rw [endAll_ext he cards st (shownCards st cards)]

/-! The claims. -/

/-- C1: for every deal of three distinct ranks and every run of `play_hand`
that reaches a terminal state (and returns), the three returned deltas —
pot size for the winner, 0 otherwise, minus each seat's contribution — sum
to exactly zero, under the hypothesis that the pot size at the final state
equals the sum of the three seats' contributions. -/
theorem C1_zero_sum (ags : Nat → Agent) (cards : List Nat) (st : BState)
    (d : List Int) (hdeal : cards ∈ deals)
    (hrun : play_hand ags cards = .ok (st, d))
    (hterm : is_terminal st = true)
    (hpot : pot_size st =
      pot_contribution st 0 + pot_contribution st 1 + pot_contribution st 2) :
    d.sum = 0 := by
  obtain ⟨hloop, hpay⟩ := play_hand_ok hrun
  have hmem : st ∈ allStates := runLoop_mem 6 ([] : BState) st (by decide) hloop
  have hterm2 : st ∈ terminalStates := List.mem_filter.mpr ⟨hmem, hterm⟩
  have hz := payoutZero_all st hterm2 cards hdeal
  unfold payoutZero at hz
  rw [hpay] at hz
  exact eq_of_beq hz

/-- C1 witness: the all-check hand on the deal `[0, 1, 2]` ends at the
showdown `[0, 0, 0]` with deltas `[-1, -1, 2]`, which sum to zero. -/
theorem C1_zero_sum_witness :
    play_hand okAgs [0, 1, 2] = .ok ([0, 0, 0], [-1, -1, 2]) ∧
    List.sum [(-1 : Int), -1, 2] = 0 :=
  ⟨by rfl,
   C1_zero_sum okAgs [0, 1, 2] [0, 0, 0] [-1, -1, 2] (by decide) (by rfl)
     (by rfl) (by rfl)⟩

/-- C2 (code bug): when every seat's `act` raises, seat 0 forfeits its very
first turn, the dealer applies the forced Check and `break`s at the internal
state `[CHECK]`; `winner` then fails its `assert betting.is_terminal(state)`
and `play_hand` raises `AssertionError` instead of returning a terminal
state and a payout vector. -/
theorem C2_forfeit_crashes :
    play_hand crashAgs [0, 1, 2] = .error .assertionError := by rfl

/-- C3: whenever the sandbox reports a caught forfeit for the acting seat at
an internal state, the dealer applies exactly one canonical action — `CHECK`
if the acting seat can bet, `FOLD` if it is facing a bet — and stops the
action loop immediately at the resulting one-action extension of the
history. -/
theorem C3_forfeit_single_step (ags : Nat → Agent) (cards : List Nat)
    (fuel : Nat) (h : BState) (e : PyErr)
    (hint : is_internal h = true)
    (hv : vact (ags (actor h)) h (cards.getD (actor h) 0) = .error e)
    (hc : caughtByDealer e = true) :
    runLoop ags cards (fuel + 1) h =
      .ok (act h (if can_bet h then CHECK else FOLD)) ∧
    (can_bet h = true → runLoop ags cards (fuel + 1) h = .ok (act h CHECK)) ∧
    (facing_bet h = true → runLoop ags cards (fuel + 1) h = .ok (act h FOLD)) := by
  have hterm : is_terminal h = false := by
    unfold is_internal at hint
    unfold is_terminal
    cases hq : (conf h).queue.isEmpty with
    | false => rfl
    | true => rw [hq] at hint; exact absurd hint (by simp)
  have hmain : runLoop ags cards (fuel + 1) h =
      .ok (act h (if can_bet h then CHECK else FOLD)) := by
    unfold runLoop
    rw [hterm, hv]
    simp [hc]
  refine ⟨hmain, ?_, ?_⟩
  · intro hcb
    rw [hmain, hcb]
    simp
  · intro hf
    have hcb : can_bet h = false := can_bet_of_facing hf
    rw [hmain, hcb]
    simp

/-- C3 witness: a first-turn forfeit at the root is answered by the forced
action and the loop stops at that one-action state. -/
theorem C3_forfeit_single_step_witness :
    runLoop crashAgs [0, 1, 2] 6 ([] : BState) =
      .ok (act ([] : BState) (if can_bet ([] : BState) then CHECK else FOLD)) :=
  (C3_forfeit_single_step crashAgs [0, 1, 2] 5 ([] : BState)
    (.runtimeError "Agent crashed in act(): boom") (by rfl) (by rfl) (by rfl)).1

/-- C4 counterexample: an exception raised inside an agent's `end_hand`
propagates out of `play_hand`, because the dealer notifies the raw players
(`players[i].end_hand`), not the sandbox wrappers. -/
theorem C4_end_hand_escapes :
    play_hand endCrashAgs [0, 1, 2] = .error (.agentError "boom") := by rfl

/-- C4 amended: exceptions raised inside `start_hand` are caught and
discarded by the sandbox layer and never propagate out of `play_hand` nor
affect its result: the outcome is invariant under arbitrary replacement of
every seat's `start_hand` hook. -/
theorem C4_start_hand_contained (ags : Nat → Agent)
    (f : Nat → Nat → Nat → Except String Unit) (cards : List Nat) :
    play_hand (fun i => ⟨f i, (ags i).act, (ags i).end_hand⟩) cards =
      play_hand ags cards := by
  have h1 : play_hand (fun i => ⟨f i, (ags i).act, (ags i).end_hand⟩) cards =
      finishHand (fun i => ⟨f i, (ags i).act, (ags i).end_hand⟩) cards
        (runLoop (fun i => ⟨f i, (ags i).act, (ags i).end_hand⟩) cards 6
          ([] : BState)) := rfl
  have h2 : play_hand ags cards =
      finishHand ags cards (runLoop ags cards 6 ([] : BState)) := rfl
  rw [h1, h2]
  rw [@runLoop_ext (fun i => ⟨f i, (ags i).act, (ags i).end_hand⟩) ags
    (fun i => rfl) cards 6 ([] : BState)]
  exact @finishHand_ext (fun i => ⟨f i, (ags i).act, (ags i).end_hand⟩) ags
    (fun i => rfl) cards (runLoop ags cards 6 ([] : BState))

/-- C5 counterexample: the integrity fault for a non-internal state is a
`ValueError` — the same error kind as an agent's invalid-return fault — and
the dealer's action loop catches `ValueError`, so it would be converted into
a per-turn forfeit rather than failing with a distinct kind. -/
theorem C5_integrity_not_distinct :
    vact okAgent [1, 1, 1] 0 =
      .error (.valueError "act() called with non-internal state") ∧
    vact badAgent ([] : BState) 0 =
      .error (.valueError "returned invalid action, must be 0 (check/call) or 1 (bet/fold)") ∧
    errKind (.valueError "act() called with non-internal state") =
      errKind (.valueError "returned invalid action, must be 0 (check/call) or 1 (bet/fold)") ∧
    caughtByDealer (.valueError "act() called with non-internal state") = true :=
  ⟨rfl, rfl, rfl, rfl⟩

/-- C5 amended: calling the sandbox's `act` with a non-internal state or an
invalid rank raises a `ValueError` before the agent is invoked; this is the
same error kind as an agent invalid-return fault, and the dealer's loop
catches `ValueError` and `RuntimeError`, so inside the loop such an
integrity fault would be treated as a per-turn forfeit. -/
theorem C5_precondition_faults (ag : Agent) (h : BState) (card : Nat) :
    (is_internal h = false →
      vact ag h card = .error (.valueError "act() called with non-internal state")) ∧
    (is_internal h = true → 4 ≤ card →
      vact ag h card = .error (.valueError "Invalid card")) ∧
    (∀ m, caughtByDealer (.valueError m) = true) ∧
    (∀ m, caughtByDealer (.runtimeError m) = true) := by
  refine ⟨?_, ?_, fun m => rfl, fun m => rfl⟩
  · intro h0
    unfold vact
    rw [h0]
    rfl
  · intro h1 h2
    unfold vact
    rw [h1]
    have hc : decide (card < 4) = false := decide_eq_false (by omega)
    rw [hc]
    rfl

/-- C5 witness: the precondition fault at the concrete terminal state
`[1, 1, 1]` is raised and would be caught by the dealer's loop. -/
theorem C5_precondition_faults_witness :
    vact okAgent [1, 1, 1] 2 =
      .error (.valueError "act() called with non-internal state") ∧
    caughtByDealer (.valueError "act() called with non-internal state") = true :=
  ⟨(C5_precondition_faults okAgent [1, 1, 1] 2).1 (by rfl),
   (C5_precondition_faults okAgent [1, 1, 1] 2).2.2.1
     "act() called with non-internal state"⟩

/-- C6: on an internal state with a valid rank, the sandbox validates the
agent's output: a non-int non-bool return raises `ValueError`; an exception
from the agent is caught and re-signaled as a `RuntimeError` forfeit (the
agent's own exception never reaches the dealer's loop); an int outside
`{0, 1}` raises `ValueError`; an accepted int or bool is coerced to 0 or 1
before being returned. -/
theorem C6_output_validation (ag : Agent) (h : BState) (card : Nat)
    (hint : is_internal h = true) (hcard : card < 4) :
    (∀ e, ag.act h card = .error e →
      vact ag h card = .error (.runtimeError ("Agent crashed in act(): " ++ e)) ∧
      caughtByDealer (.runtimeError ("Agent crashed in act(): " ++ e)) = true) ∧
    (ag.act h card = .ok .other →
      vact ag h card =
        .error (.valueError "returned invalid action type, expected int (0 or 1)") ∧
      caughtByDealer (.valueError "returned invalid action type, expected int (0 or 1)") = true) ∧
    (∀ n : Int, ag.act h card = .ok (.int n) → n ≠ 0 → n ≠ 1 →
      vact ag h card =
        .error (.valueError "returned invalid action, must be 0 (check/call) or 1 (bet/fold)")) ∧
    (∀ n : Int, ag.act h card = .ok (.int n) → (n = 0 ∨ n = 1) →
      vact ag h card = .ok n.toNat) ∧
    (∀ b : Bool, ag.act h card = .ok (.bool b) →
      vact ag h card = .ok (if b then 1 else 0)) := by
  have hva : vact ag h card = validateReturn h (ag.act h card) := by
    unfold vact
    rw [hint, decide_eq_true hcard]
    rfl
  have hnum : (num_actions h == 2) = true := by
    unfold num_actions
    rw [hint]
    rfl
  refine ⟨?_, ?_, ?_, ?_, ?_⟩
  · intro e hA
    rw [hva, hA]
    exact ⟨rfl, rfl⟩
  · intro hA
    rw [hva, hA]
    exact ⟨rfl, rfl⟩
  · intro n hA h0 h1
    rw [hva, hA]
    simp only [validateReturn]
    have hb : (pyInt (PyVal.int n) == 0 || pyInt (PyVal.int n) == 1) = false := by
      simp [pyInt, h0, h1]
    rw [hb]
    rfl
  · intro n hA hOr
    rw [hva, hA]
    simp only [validateReturn]
    have hb : (pyInt (PyVal.int n) == 0 || pyInt (PyVal.int n) == 1) = true := by
      rcases hOr with h0 | h0 <;> simp [pyInt, h0]
    rw [hb, hnum]
    rfl
  · intro b hA
    rw [hva, hA]
    simp only [validateReturn]
    cases b with
    | true => rw [hnum]; rfl
    | false => rw [hnum]; rfl

/-- C6 witness: the Python value `True` is accepted and coerced to action 1
at the root state. -/
theorem C6_output_validation_witness :
    vact boolAgent ([] : BState) 0 = .ok 1 :=
  (C6_output_validation boolAgent ([] : BState) 0 (by rfl) (by decide)).2.2.2.2
    true rfl

/-- C7: for every reachable terminal state and every deal of three distinct
ranks, the dealer's winner is the active seat with the strictly highest rank
among active seats when the state is a showdown, and the sole surviving
active seat otherwise. -/
theorem C7_winner (st : BState) (cards : List Nat)
    (hst : st ∈ terminalStates) (hc : cards ∈ deals) :
    (is_showdown st = true →
      ∃ w ∈ List.range 3, winnerIs st cards w = true ∧ active st w = true ∧
        ∀ i ∈ List.range 3, active st i = true → i ≠ w →
          cards.getD i 0 < cards.getD w 0) ∧
    (is_showdown st = false →
      ∃ w ∈ List.range 3, winnerIs st cards w = true ∧ active st w = true ∧
        ∀ i ∈ List.range 3, i ≠ w → active st i = false) :=
  winnerTable st hst cards hc

/-- C7 witness: the all-check showdown on the deal `[0, 1, 2]`. -/
theorem C7_winner_witness :
    (is_showdown [0, 0, 0] = true →
      ∃ w ∈ List.range 3, winnerIs [0, 0, 0] [0, 1, 2] w = true ∧
        active [0, 0, 0] w = true ∧
        ∀ i ∈ List.range 3, active [0, 0, 0] i = true → i ≠ w →
          [0, 1, 2].getD i 0 < [0, 1, 2].getD w 0) ∧
    (is_showdown [0, 0, 0] = false →
      ∃ w ∈ List.range 3, winnerIs [0, 0, 0] [0, 1, 2] w = true ∧
        active [0, 0, 0] w = true ∧
        ∀ i ∈ List.range 3, i ≠ w → active [0, 0, 0] i = false) :=
  C7_winner [0, 0, 0] [0, 1, 2] (by decide) (by decide)

/-- C8: in the revealed-ranks vector `play_hand` passes to `end_hand`, seat
`i`'s entry is its rank exactly when the seat is active at the terminal
state, and `none` otherwise — a folded seat's rank is never revealed. -/
theorem C8_revealed (ags : Nat → Agent) (cards : List Nat) (st : BState)
    (d : List Int) (hrun : play_hand ags cards = .ok (st, d))
    (i : Nat) (hi : i < 3) :
    is_terminal st = true ∧
    (shownCards st cards).getD i none =
      (if active st i = true then some (cards.getD i 0) else none) := by
  obtain ⟨hloop, hpay⟩ := play_hand_ok hrun
  refine ⟨payout_terminal hpay, ?_⟩
  have h3 : i = 0 ∨ i = 1 ∨ i = 2 := by omega
  rcases h3 with h0 | h0 | h0 <;> rw [h0] <;> rfl

/-- C8 witness: seat 1 in the all-check hand is active and its rank is
revealed. -/
theorem C8_revealed_witness :
    is_terminal [0, 0, 0] = true ∧
    (shownCards [0, 0, 0] [0, 1, 2]).getD 1 none =
      (if active [0, 0, 0] 1 = true then some ([0, 1, 2].getD 1 0) else none) :=
  C8_revealed okAgs [0, 1, 2] [0, 0, 0] [-1, -1, 2] (by rfl) 1 (by decide)

/-- C9: exhaustive breadth-first enumeration of the betting tree from the
root yields exactly 25 reachable states, of which exactly 12 are internal
and exactly 13 are terminal. -/
theorem C9_state_counts :
    allStates.length = 25 ∧ internalStates.length = 12 ∧
      terminalStates.length = 13 := by decide

/-- C10: in `Match.play` with button rotation, seat `i`'s delta of hand
`hn` is credited to the original player `(hn % 3 + i) % 3`, so player `p`'s
score after `n` hands is the sum of the deltas of the seats it occupied,
and the three scores sum to the total of all per-hand deltas — zero when
every hand is zero-sum. -/
theorem C10_rotation_scores (d : Nat → Nat → Int) (n : Nat) :
    (∀ p, p < 3 →
      (matchPlay d n).getD p 0 =
        ((List.range n).map fun hn => d hn ((p + 3 - hn % 3) % 3)).sum) ∧
    (matchPlay d n).sum =
      ((List.range n).map fun hn => d hn 0 + d hn 1 + d hn 2).sum ∧
    ((∀ hn, hn < n → d hn 0 + d hn 1 + d hn 2 = 0) →
      (matchPlay d n).sum = 0) := by
  have hsum : (matchPlay d n).sum =
      ((List.range n).map fun hn => d hn 0 + d hn 1 + d hn 2).sum := by
    rw [matchPlay_eq, ← sum_three_rotations d (List.range n)]
    simp only [List.sum_cons, List.sum_nil]
    ring
  refine ⟨?_, hsum, ?_⟩
  · intro p hp
    have h3 : p = 0 ∨ p = 1 ∨ p = 2 := by omega
    rcases h3 with h0 | h0 | h0 <;> rw [h0, matchPlay_eq] <;> rfl
  · intro hz
    rw [hsum]
    apply List.sum_eq_zero
    intro x hx
    rw [List.mem_map] at hx
    obtain ⟨hn, hmem, hEq⟩ := hx
    rw [List.mem_range] at hmem
    rw [← hEq]
    exact hz hn hmem

/-- C10 witness: two hands with the constant delta vector `[5, -2, -3]`. -/
theorem C10_rotation_scores_witness :
    (matchPlay (fun _ i => 5 - 7 * (i : Int) + 4 * ((i : Int) * (i : Int) - i) / 2) 2).getD 0 0 =
      ((List.range 2).map fun hn =>
        (fun (_ : Nat) (i : Nat) => 5 - 7 * (i : Int) + 4 * ((i : Int) * (i : Int) - i) / 2) hn
          ((0 + 3 - hn % 3) % 3)).sum :=
  (C10_rotation_scores
    (fun _ i => 5 - 7 * (i : Int) + 4 * ((i : Int) * (i : Int) - i) / 2) 2).1 0
    (by decide)

end Kuhn3p
